import Mathlib

/-!
Shallow embedding of the recipe API (Django REST Framework application):
`app/recipe/views.py` and `app/recipe/serializers.py`, over a relational
state for the `core.models` entities.  Querysets are modelled as lists with
SQL join multiplicity; `.distinct()` is row-level de-duplication; exceptions
that escape a handler are modelled as `Option.none` results.
-/

namespace RecipeApi

/-- Modelled from the spec: `core/models.py` is absent from src/ (only its
tests and callers are present).  §3 of the spec gives Tag = {id, user, name}. -/
structure Tag where
  id : Nat
  user : Nat
  name : String
deriving DecidableEq, Repr

/-- Modelled from the spec: `core/models.py` is absent from src/.
§3: Ingredient has the same shape as Tag. -/
structure Ingredient where
  id : Nat
  user : Nat
  name : String
deriving DecidableEq, Repr

/-- Modelled from the spec: `core/models.py` is absent from src/.
§3: Recipe = {id, user, title, time_minutes, price, link, description, image,
tags, ingredients}.  `price` (a fixed-point decimal) is carried as a scaled
integer; the many-to-many rows live in the database state below. -/
structure Recipe where
  id : Nat
  user : Nat
  title : String
  time_minutes : Nat
  price : Nat
  link : String
  description : String
  image : Option String
deriving DecidableEq, Repr

/-- The relational store: entity tables plus the two many-to-many join
tables (`(recipe id, tag id)` and `(recipe id, ingredient id)` rows). -/
structure DB where
  tags : List Tag
  ingredients : List Ingredient
  recipes : List Recipe
  recipeTags : List (Nat × Nat)
  recipeIngredients : List (Nat × Nat)
deriving DecidableEq, Repr

/-- HTTP status codes produced by the handlers in `views.py`. -/
inductive Status where
  | s200 | s201 | s204 | s400 | s404
deriving DecidableEq, Repr

/-! ### Python `int()` on strings

`RecipeViewSet._params_to_ints` and `BaseRecipeAttrViewSet.get_queryset`
call `int(...)` on query-parameter strings; `int` accepts surrounding
whitespace, an optional sign, and digits with single underscores between
digits, and raises `ValueError` (modelled as `none`) otherwise. -/

/-- Shape of a Python integer literal body after the sign: a digit followed
by digits, where each single underscore must sit between two digits. -/
def pyIntShapeRest : List Char → Bool
  | [] => true
  | '_' :: rest =>
    match rest with
    | [] => false
    | c :: cs => c.isDigit && pyIntShapeRest cs
  | c :: cs => c.isDigit && pyIntShapeRest cs

def pyIntShape : List Char → Bool
  | [] => false
  | c :: cs => c.isDigit && pyIntShapeRest cs

/-- Numeric value of a digit string, skipping underscores. -/
def charsVal (l : List Char) : Nat :=
  l.foldl (fun acc c => if c = '_' then acc else acc * 10 + (c.toNat - 48)) 0

/-- The whitespace stripping Python's `int(...)` applies to its argument. -/
def pyStrip (cs : List Char) : List Char :=
  (((cs.dropWhile Char.isWhitespace).reverse).dropWhile Char.isWhitespace).reverse

/-- Python `int(...)` on the characters of a string: `some n` on success,
`none` when `ValueError` is raised. -/
def pyIntChars? (cs : List Char) : Option Int :=
  match pyStrip cs with
  | '-' :: rest => if pyIntShape rest then some (-(charsVal rest : Int)) else none
  | '+' :: rest => if pyIntShape rest then some ((charsVal rest : Int)) else none
  | stripped => if pyIntShape stripped then some ((charsVal stripped : Int)) else none

/-- Python `int(s)` for a string. -/
def pyInt? (s : String) : Option Int := pyIntChars? s.toList

/-- Python `s.split(',')`: the comma-separated tokens, keeping empty
tokens (so `"1,"` yields `["1", ""]` and `""` yields `[""]`). -/
def splitOnComma : List Char → List (List Char)
  | [] => [[]]
  | c :: cs =>
    let r := splitOnComma cs
    if c = ',' then [] :: r
    else match r with
      | [] => [[c]]
      | h :: t => (c :: h) :: t

/-- `RecipeViewSet._params_to_ints`: `[int(str_id) for str_id in qs.split(',')]`.
`none` models the unhandled `ValueError` escaping the list comprehension. -/
def params_to_ints (qs : String) : Option (List Int) :=
  (splitOnComma qs.toList).mapM pyIntChars?

/-! ### SQL `DISTINCT` and queryset ordering -/

/-- Helper for `sqlDistinct`: keeps rows not already in `seen`. -/
def sqlDistinctAux {α : Type} [DecidableEq α] : List α → List α → List α
  | _, [] => []
  | seen, x :: xs =>
    if x ∈ seen then sqlDistinctAux seen xs
    else x :: sqlDistinctAux (x :: seen) xs

/-- Row-level de-duplication, keeping the first occurrence of each row:
the effect of `.distinct()` on a queryset whose joins duplicated rows. -/
def sqlDistinct {α : Type} [DecidableEq α] (l : List α) : List α :=
  sqlDistinctAux [] l

/-- Descending-`id` order used by `order_by('-id')` on the recipe queryset. -/
def idDesc (a b : Recipe) : Prop := b.id ≤ a.id

instance : DecidableRel idDesc := fun _ _ => Nat.decLe _ _
instance : IsTotal Recipe idDesc := ⟨fun a b => (Nat.le_total b.id a.id).imp id id⟩
instance : IsTrans Recipe idDesc := ⟨fun _ _ _ h1 h2 => Nat.le_trans h2 h1⟩

/-- Byte-wise lexicographic `≤` on strings (as character lists): the
collation behind `order_by('-name')`. -/
def strLe : List Char → List Char → Bool
  | [], _ => true
  | _ :: _, [] => false
  | a :: as, b :: bs =>
    if a.toNat < b.toNat then true
    else if b.toNat < a.toNat then false
    else strLe as bs

/-- Descending-name order used by `order_by('-name')` on tag querysets. -/
def tagNameDesc (a b : Tag) : Prop := strLe b.name.toList a.name.toList = true

instance : DecidableRel tagNameDesc := fun _ _ => instDecidableEqBool _ _

/-- Descending-name order used by `order_by('-name')` on ingredient querysets. -/
def ingNameDesc (a b : Ingredient) : Prop := strLe b.name.toList a.name.toList = true

instance : DecidableRel ingNameDesc := fun _ _ => instDecidableEqBool _ _

/-! ### `RecipeViewSet.get_queryset`

`queryset.filter(tags__id__in=tag_ids)` joins the many-to-many table: the
result has one row per matching association, so filtering is modelled as a
`bind` producing one copy of the recipe per matching join row; the final
`.distinct()` collapses the duplicates. -/

/-- `queryset.filter(tags__id__in=ids)`: one joined row per `(recipe, tag)`
association whose tag id is in `ids`. -/
def filterTagsIdIn (db : DB) (rs : List Recipe) (ids : List Int) : List Recipe :=
  rs.flatMap (fun r =>
    (db.recipeTags.filter
      (fun p => p.1 == r.id && ids.contains (Int.ofNat p.2))).map (fun _ => r))

/-- `queryset.filter(ingredients__id__in=ids)`: one joined row per
`(recipe, ingredient)` association whose ingredient id is in `ids`. -/
def filterIngredientsIdIn (db : DB) (rs : List Recipe) (ids : List Int) : List Recipe :=
  rs.flatMap (fun r =>
    (db.recipeIngredients.filter
      (fun p => p.1 == r.id && ids.contains (Int.ofNat p.2))).map (fun _ => r))

/-- The query-parameter handling of `RecipeViewSet.get_queryset` for one
parameter: `None` or the empty string is falsy (`if tags:`) and applies no
filter; otherwise `_params_to_ints` runs, and its `ValueError` (outer
`none`) escapes the handler. -/
def paramIds (p : Option String) : Option (Option (List Int)) :=
  match p with
  | none => some none
  | some s => if s = "" then some none else (params_to_ints s).map some

/-- The queryset resolved by `RecipeViewSet.get_queryset` once the filter
id-lists are known: optional tag join, optional ingredient join,
`.filter(user=request.user).order_by('-id').distinct()`. -/
def recipeQueryset (db : DB) (uid : Nat) (tf ifl : Option (List Int)) : List Recipe :=
  let q0 := db.recipes
  let q1 := match tf with
    | none => q0
    | some ids => filterTagsIdIn db q0 ids
  let q2 := match ifl with
    | none => q1
    | some ids => filterIngredientsIdIn db q1 ids
  List.insertionSort idDesc (sqlDistinct (q2.filter (fun r => r.user == uid)))

/-- `GET /recipes/` for the authenticated user `uid` with optional `tags`
and `ingredients` query parameters; `none` models the unhandled
`ValueError` from `_params_to_ints` (no structured response is produced). -/
def recipeList (db : DB) (uid : Nat) (tp ip : Option String) :
    Option (List Recipe) :=
  match paramIds tp with
  | none => none
  | some tf =>
    match paramIds ip with
    | none => none
    | some ifl => some (recipeQueryset db uid tf ifl)

/-- `get_object()` for detail actions (retrieve / update / delete /
upload_image): `get_queryset().get(pk=pk)`, i.e. lookup by primary key
inside the user-scoped queryset. -/
def recipeGetObject (db : DB) (uid : Nat) (tp ip : Option String) (rid : Nat) :
    Option Recipe :=
  (recipeList db uid tp ip).bind (fun out => out.find? (fun r => r.id == rid))

/-! ### `BaseRecipeAttrViewSet.get_queryset` (tags and ingredients) -/

/-- `bool(int(self.request.query_params.get('assigned_only', 0)))`: absent
parameter defaults to integer `0`; a present string goes through `int(...)`
(whose `ValueError` is the outer `none`) and then Python truthiness. -/
def assignedFlag (p : Option String) : Option Bool :=
  match p with
  | none => some false
  | some s => (pyInt? s).map (fun n => n != 0)

/-- `queryset.filter(recipe__isnull=False)` on tags: inner join with the
recipe many-to-many table, one row per association referencing the tag. -/
def tagsAssignedJoin (db : DB) (ts : List Tag) : List Tag :=
  ts.flatMap (fun t => (db.recipeTags.filter (fun p => p.2 == t.id)).map (fun _ => t))

/-- `queryset.filter(recipe__isnull=False)` on ingredients. -/
def ingredientsAssignedJoin (db : DB) (ts : List Ingredient) : List Ingredient :=
  ts.flatMap (fun t =>
    (db.recipeIngredients.filter (fun p => p.2 == t.id)).map (fun _ => t))

/-- The tag queryset once the `assigned_only` flag is known:
optional join, then `.filter(user=request.user).order_by('-name').distinct()`. -/
def tagQueryset (db : DB) (uid : Nat) (flag : Bool) : List Tag :=
  let q1 := if flag then tagsAssignedJoin db db.tags else db.tags
  List.insertionSort tagNameDesc (sqlDistinct (q1.filter (fun t => t.user == uid)))

/-- The ingredient queryset once the `assigned_only` flag is known. -/
def ingredientQueryset (db : DB) (uid : Nat) (flag : Bool) : List Ingredient :=
  let q1 := if flag then ingredientsAssignedJoin db db.ingredients else db.ingredients
  List.insertionSort ingNameDesc (sqlDistinct (q1.filter (fun t => t.user == uid)))

/-- `GET /tags/` for user `uid` with optional `assigned_only` parameter. -/
def tagList (db : DB) (uid : Nat) (p : Option String) : Option (List Tag) :=
  (assignedFlag p).map (tagQueryset db uid)

/-- `GET /ingredients/` for user `uid` with optional `assigned_only`. -/
def ingredientList (db : DB) (uid : Nat) (p : Option String) :
    Option (List Ingredient) :=
  (assignedFlag p).map (ingredientQueryset db uid)

/-- `get_object()` on the tag viewset: pk lookup in the scoped queryset. -/
def tagGetObject (db : DB) (uid : Nat) (p : Option String) (tid : Nat) :
    Option Tag :=
  (tagList db uid p).bind (fun out => out.find? (fun t => t.id == tid))

/-- `get_object()` on the ingredient viewset. -/
def ingredientGetObject (db : DB) (uid : Nat) (p : Option String) (iid : Nat) :
    Option Ingredient :=
  (ingredientList db uid p).bind (fun out => out.find? (fun t => t.id == iid))

/-! ### Serializers (`app/recipe/serializers.py`) -/

/-- `RecipeSerializer.Meta.fields` (the list projection). -/
def recipeSerializerFields : List String :=
  ["id", "title", "time_minutes", "price", "link"]

/-- `RecipeDetailSerializer.Meta.fields = RecipeSerializer.Meta.fields +
['description']`. -/
def recipeDetailSerializerFields : List String :=
  recipeSerializerFields ++ ["description"]

/-- The serializer classes dispatched by `RecipeViewSet`. -/
inductive SerializerKind where
  | list | image | detail
deriving DecidableEq, Repr

/-- `RecipeViewSet.get_serializer_class`, keyed on `self.action`. -/
def get_serializer_class (action : String) : SerializerKind :=
  if action = "list" then .list
  else if action = "upload_image" then .image
  else .detail

/-- A JSON value appearing in a recipe payload: an integer, a string, or a
list of nested `{"name": ...}` objects (carried as the list of names). -/
inductive FieldVal where
  | nat (v : Nat)
  | str (v : String)
  | names (v : List String)
deriving DecidableEq, Repr

/-- Reading one named model field for serialization. -/
def getRecipeField (r : Recipe) (f : String) : FieldVal :=
  if f = "id" then .nat r.id
  else if f = "title" then .str r.title
  else if f = "time_minutes" then .nat r.time_minutes
  else if f = "price" then .nat r.price
  else if f = "link" then .str r.link
  else if f = "description" then .str r.description
  else .str ""

/-- Serializing a recipe under a field list: the wire object's keys are
exactly the serializer's declared fields. -/
def serializeRecipe (fields : List String) (r : Recipe) :
    List (String × FieldVal) :=
  fields.map (fun f => (f, getRecipeField r f))

/-- Writing one named model field during deserialization (type-mismatched
values leave the record unchanged). -/
def setRecipeField (r : Recipe) (f : String) (v : FieldVal) : Recipe :=
  if f = "id" then match v with | .nat x => { r with id := x } | _ => r
  else if f = "title" then match v with | .str x => { r with title := x } | _ => r
  else if f = "time_minutes" then match v with | .nat x => { r with time_minutes := x } | _ => r
  else if f = "price" then match v with | .nat x => { r with price := x } | _ => r
  else if f = "link" then match v with | .str x => { r with link := x } | _ => r
  else if f = "description" then match v with | .str x => { r with description := x } | _ => r
  else r

/-- The writable fields of a `ModelSerializer` with the given declared
fields: DRF maps the model's auto primary key (`AutoField`, non-editable)
to a read-only serializer field, so `id` is never writable.  The misspelled
`read__only_fields` attribute in `RecipeSerializer.Meta` is inert (DRF only
reads `read_only_fields`), but the primary-key default makes `id` read-only
regardless. -/
def writableFields (fields : List String) : List String :=
  fields.filter (fun f => f ≠ "id")

/-- Deserializing a payload into a recipe instance: each payload entry
whose key is among the writable declared fields is applied; unknown keys
(e.g. a nested `tags` list, which `RecipeSerializer` does not declare) and
read-only keys are ignored. -/
def deserializeRecipe (fields : List String) (r : Recipe)
    (payload : List (String × FieldVal)) : Recipe :=
  payload.foldl
    (fun acc kv =>
      if (writableFields fields).contains kv.1 then setRecipeField acc kv.1 kv.2
      else acc)
    r

/-- Modelled from the spec: `TagSerializer` / `IngredientSerializer` are
absent from src/ (the tests import them from `recipe.serializers`).  §2:
the serialization layer enforces required fields, so a tag/ingredient
payload must provide a (non-empty) name. -/
def validName (name : String) : Bool := name ≠ ""

/-- ASCII lower-casing of one character. -/
def lowerChar (c : Char) : Char :=
  if 65 ≤ c.toNat ∧ c.toNat ≤ 90 then Char.ofNat (c.toNat + 32) else c

/-- Lower-cased characters of a string. -/
def lowerStr (s : String) : List Char := s.toList.map lowerChar

/-- Django's `name__iexact` lookup: case-insensitive name equality. -/
def iexact (a b : String) : Bool := lowerStr a == lowerStr b

/-! ### Mutating operations -/

/-- Auto-increment primary key for a new tag row. -/
def freshTagId (db : DB) : Nat :=
  db.tags.foldr (fun t m => max t.id m) 0 + 1

/-- Auto-increment primary key for a new ingredient row. -/
def freshIngredientId (db : DB) : Nat :=
  db.ingredients.foldr (fun t m => max t.id m) 0 + 1

/-- Auto-increment primary key for a new recipe row. -/
def freshRecipeId (db : DB) : Nat :=
  db.recipes.foldr (fun t m => max t.id m) 0 + 1

/-- `TagViewSet._instance_exists`: `Tag.objects.filter(user=request.user,
name__iexact=tag['name']).exists()` — note the lookup is over all of the
user's tags and never excludes the instance being updated. -/
def tagInstanceExists (db : DB) (uid : Nat) (name : String) : Bool :=
  db.tags.any (fun t => t.user == uid && iexact t.name name)

/-- `IngredientViewSet._instance_exists`. -/
def ingredientInstanceExists (db : DB) (uid : Nat) (name : String) : Bool :=
  db.ingredients.any (fun t => t.user == uid && iexact t.name name)

/-- `TagViewSet.create`: serializer validation (`raise_exception=True`
yields a 400 on invalid data), then the duplicate check; a non-duplicate is
saved with `user=self.request.user` and answered 201, a duplicate is
answered 400 with a message and nothing is persisted. -/
def tagCreate (db : DB) (uid : Nat) (name : String) : Status × DB :=
  if validName name = false then (.s400, db)
  else if tagInstanceExists db uid name then (.s400, db)
  else (.s201, { db with tags := db.tags ++ [⟨freshTagId db, uid, name⟩] })

/-- `IngredientViewSet.create`. -/
def ingredientCreate (db : DB) (uid : Nat) (name : String) : Status × DB :=
  if validName name = false then (.s400, db)
  else if ingredientInstanceExists db uid name then (.s400, db)
  else (.s201,
    { db with ingredients :=
        db.ingredients ++ [⟨freshIngredientId db, uid, name⟩] })

/-- `TagViewSet.update`: `get_object()` (404 when the pk is not in the
user-scoped queryset), serializer validation, the duplicate check over all
owned tags, then `serializer.save()` writing the new name to the instance
row. -/
def tagUpdate (db : DB) (uid : Nat) (tid : Nat) (newName : String) :
    Status × DB :=
  match tagGetObject db uid none tid with
  | none => (.s404, db)
  | some _ =>
    if validName newName = false then (.s400, db)
    else if tagInstanceExists db uid newName then (.s400, db)
    else (.s200,
      { db with tags := (db.tags.map (fun t =>
          if t.id == tid then { t with name := newName } else t)) })

/-- `IngredientViewSet.update`. -/
def ingredientUpdate (db : DB) (uid : Nat) (iid : Nat) (newName : String) :
    Status × DB :=
  match ingredientGetObject db uid none iid with
  | none => (.s404, db)
  | some _ =>
    if validName newName = false then (.s400, db)
    else if ingredientInstanceExists db uid newName then (.s400, db)
    else (.s200,
      { db with ingredients := (db.ingredients.map (fun t =>
          if t.id == iid then { t with name := newName } else t)) })

/-- The required recipe fields are present in the payload (DRF rejects a
create missing `title`, `time_minutes` or `price`). -/
def requiredPresent (payload : List (String × FieldVal)) : Bool :=
  payload.any (fun kv => kv.1 == "title") &&
  payload.any (fun kv => kv.1 == "time_minutes") &&
  payload.any (fun kv => kv.1 == "price")

/-- A blank recipe row about to be inserted: its primary key comes from the
auto-increment counter and its owner from `perform_create`'s
`serializer.save(user=self.request.user)`. -/
def newRecipeBase (db : DB) (uid : Nat) : Recipe :=
  { id := freshRecipeId db, user := uid, title := "", time_minutes := 0,
    price := 0, link := "", description := "", image := none }

/-- `POST /recipes/`: `RecipeViewSet` with `action = 'create'` uses the
default `serializer_class` (`RecipeDetailSerializer`); a payload passing
validation is deserialized over that serializer's writable fields and
persisted via `perform_create`. -/
def recipeCreate (db : DB) (uid : Nat) (payload : List (String × FieldVal)) :
    Status × DB :=
  if requiredPresent payload then
    (.s201,
      { db with recipes := db.recipes ++
          [deserializeRecipe recipeDetailSerializerFields
            (newRecipeBase db uid) payload] })
  else (.s400, db)

/-- `RecipeViewSet.upload_image`: `get_object()`, then the image serializer
validates the uploaded data (the validation predicate is the image
serializer's `is_valid`, abstracted as a parameter since
`RecipeImageSerializer` is absent from src/); on success the image
reference is saved and 200 returned, on failure the errors are returned
with 400. -/
def upload_image (validate : String → Bool) (db : DB) (uid : Nat)
    (rid : Nat) (img : String) : Status × DB :=
  match recipeGetObject db uid none none rid with
  | none => (.s404, db)
  | some r =>
    if validate img then
      (.s200,
        { db with recipes := (db.recipes.map (fun x =>
            if x.id == r.id then { x with image := some img } else x)) })
    else (.s400, db)

/-! ### Concrete fixtures used to instantiate the theorems -/

/-- A sample recipe owned by user 1. -/
def sampleRecipe : Recipe :=
  { id := 1, user := 1, title := "Sample Recipe", time_minutes := 10,
    price := 500, link := "http://example.com/recipe.pdf",
    description := "Sample description", image := none }

/-- A sample database: user 1 owns one recipe, one tag and one ingredient,
the recipe referencing both. -/
def sampleDB : DB :=
  { tags := [⟨1, 1, "Vegan"⟩], ingredients := [⟨1, 1, "Kale"⟩],
    recipes := [sampleRecipe], recipeTags := [(1, 1)],
    recipeIngredients := [(1, 1)] }

/-- The empty database. -/
def emptyDB : DB :=
  { tags := [], ingredients := [], recipes := [], recipeTags := [],
    recipeIngredients := [] }

/-- A database with cross-user associations: user 1's tag and ingredient
are referenced only by user 2's recipe (such rows are reachable through
the admin console, which bypasses the API's validation). -/
def crossDB : DB :=
  { tags := [⟨1, 1, "Apples"⟩], ingredients := [⟨1, 1, "Salt"⟩],
    recipes := [{ id := 10, user := 2, title := "Apple crumble",
                  time_minutes := 5, price := 1000, link := "",
                  description := "", image := none }],
    recipeTags := [(10, 1)], recipeIngredients := [(10, 1)] }

/-- The nested-tags create payload of the spec's §8 example and of
`test_create_recipe_with_new_tags`. -/
def thaiCurryPayload : List (String × FieldVal) :=
  [("title", .str "Thai Curry"), ("time_minutes", .nat 30),
   ("price", .nat 500), ("tags", .names ["Dinner", "Thai"])]

/-! ### Queryset characterization lemmas -/

theorem mem_sqlDistinctAux {α : Type} [DecidableEq α] (l seen : List α)
    (a : α) : a ∈ sqlDistinctAux seen l ↔ a ∈ l ∧ a ∉ seen := by
  induction l generalizing seen with
  | nil => simp [sqlDistinctAux]
  | cons x xs ih =>
    simp only [sqlDistinctAux]
    by_cases hx : x ∈ seen
    · rw [if_pos hx, ih]
      constructor
      · rintro ⟨h1, h2⟩
        exact ⟨List.mem_cons_of_mem _ h1, h2⟩
      · rintro ⟨h1, h2⟩
        rcases List.mem_cons.mp h1 with rfl | h1
        · exact absurd hx h2
        · exact ⟨h1, h2⟩
    · rw [if_neg hx]
      simp only [List.mem_cons, ih, List.mem_cons]
      constructor
      · rintro (rfl | ⟨h1, h2⟩)
        · exact ⟨Or.inl rfl, hx⟩
        · exact ⟨Or.inr h1, fun hs => h2 (Or.inr hs)⟩
      · rintro ⟨rfl | h1, h2⟩
        · exact Or.inl rfl
        · by_cases hax : a = x
          · exact Or.inl hax
          · exact Or.inr ⟨h1, fun hs => (Or.elim hs hax h2).elim⟩

theorem mem_sqlDistinct {α : Type} [DecidableEq α] (l : List α) (a : α) :
    a ∈ sqlDistinct l ↔ a ∈ l := by
  rw [sqlDistinct, mem_sqlDistinctAux]
  simp

theorem nodup_sqlDistinctAux {α : Type} [DecidableEq α] (l seen : List α) :
    (sqlDistinctAux seen l).Nodup := by
  induction l generalizing seen with
  | nil => simp [sqlDistinctAux]
  | cons x xs ih =>
    simp only [sqlDistinctAux]
    by_cases hx : x ∈ seen
    · rw [if_pos hx]; exact ih seen
    · rw [if_neg hx]
      refine List.nodup_cons.mpr ⟨?_, ih (x :: seen)⟩
      intro hmem
      exact ((mem_sqlDistinctAux _ _ _).mp hmem).2 (List.mem_cons_self x seen)

theorem nodup_sqlDistinct {α : Type} [DecidableEq α] (l : List α) :
    (sqlDistinct l).Nodup := nodup_sqlDistinctAux l []

theorem mem_filterTagsIdIn (db : DB) (rs : List Recipe) (ids : List Int)
    (r : Recipe) :
    r ∈ filterTagsIdIn db rs ids ↔
      r ∈ rs ∧ ∃ p ∈ db.recipeTags, p.1 = r.id ∧ Int.ofNat p.2 ∈ ids := by
  simp only [filterTagsIdIn, List.mem_flatMap, List.mem_map, List.mem_filter,
    Bool.and_eq_true, beq_iff_eq, List.elem_eq_mem, decide_eq_true_eq]
  constructor
  · rintro ⟨a, ha, p, ⟨hp, hid, hin⟩, rfl⟩
    exact ⟨ha, p, hp, hid, hin⟩
  · rintro ⟨ha, p, hp, hid, hin⟩
    exact ⟨r, ha, p, ⟨hp, hid, hin⟩, rfl⟩

theorem mem_filterIngredientsIdIn (db : DB) (rs : List Recipe)
    (ids : List Int) (r : Recipe) :
    r ∈ filterIngredientsIdIn db rs ids ↔
      r ∈ rs ∧ ∃ p ∈ db.recipeIngredients, p.1 = r.id ∧ Int.ofNat p.2 ∈ ids := by
  simp only [filterIngredientsIdIn, List.mem_flatMap, List.mem_map,
    List.mem_filter, Bool.and_eq_true, beq_iff_eq, List.elem_eq_mem,
    decide_eq_true_eq]
  constructor
  · rintro ⟨a, ha, p, ⟨hp, hid, hin⟩, rfl⟩
    exact ⟨ha, p, hp, hid, hin⟩
  · rintro ⟨ha, p, hp, hid, hin⟩
    exact ⟨r, ha, p, ⟨hp, hid, hin⟩, rfl⟩

theorem mem_recipeQueryset (db : DB) (uid : Nat) (tf ifl : Option (List Int))
    (r : Recipe) :
    r ∈ recipeQueryset db uid tf ifl ↔
      r ∈ db.recipes ∧ r.user = uid ∧
      (∀ ids, tf = some ids →
        ∃ p ∈ db.recipeTags, p.1 = r.id ∧ Int.ofNat p.2 ∈ ids) ∧
      (∀ ids, ifl = some ids →
        ∃ p ∈ db.recipeIngredients, p.1 = r.id ∧ Int.ofNat p.2 ∈ ids) := by
  cases tf <;> cases ifl <;>
    simp [recipeQueryset, (List.perm_insertionSort idDesc _).mem_iff,
      mem_sqlDistinct, List.mem_filter, mem_filterTagsIdIn,
      mem_filterIngredientsIdIn] <;> tauto

theorem nodup_recipeQueryset (db : DB) (uid : Nat)
    (tf ifl : Option (List Int)) : (recipeQueryset db uid tf ifl).Nodup :=
  (List.perm_insertionSort idDesc _).nodup_iff.mpr (nodup_sqlDistinct _)

theorem sorted_recipeQueryset (db : DB) (uid : Nat)
    (tf ifl : Option (List Int)) :
    (recipeQueryset db uid tf ifl).Pairwise idDesc :=
  List.sorted_insertionSort idDesc _

theorem mem_tagQueryset (db : DB) (uid : Nat) (flag : Bool) (t : Tag) :
    t ∈ tagQueryset db uid flag ↔
      t ∈ db.tags ∧ t.user = uid ∧
      (flag = true → ∃ p ∈ db.recipeTags, p.2 = t.id) := by
  cases flag <;>
    simp [tagQueryset, tagsAssignedJoin,
      (List.perm_insertionSort tagNameDesc _).mem_iff, mem_sqlDistinct,
      List.mem_filter, List.mem_flatMap, List.mem_map] <;> tauto

theorem nodup_tagQueryset (db : DB) (uid : Nat) (flag : Bool) :
    (tagQueryset db uid flag).Nodup :=
  (List.perm_insertionSort tagNameDesc _).nodup_iff.mpr (nodup_sqlDistinct _)

theorem mem_ingredientQueryset (db : DB) (uid : Nat) (flag : Bool)
    (t : Ingredient) :
    t ∈ ingredientQueryset db uid flag ↔
      t ∈ db.ingredients ∧ t.user = uid ∧
      (flag = true → ∃ p ∈ db.recipeIngredients, p.2 = t.id) := by
  cases flag <;>
    simp [ingredientQueryset, ingredientsAssignedJoin,
      (List.perm_insertionSort ingNameDesc _).mem_iff, mem_sqlDistinct,
      List.mem_filter, List.mem_flatMap, List.mem_map] <;> tauto

theorem nodup_ingredientQueryset (db : DB) (uid : Nat) (flag : Bool) :
    (ingredientQueryset db uid flag).Nodup :=
  (List.perm_insertionSort ingNameDesc _).nodup_iff.mpr (nodup_sqlDistinct _)

theorem recipeList_eq (db : DB) (uid : Nat) (tp ip : Option String)
    (out : List Recipe) (h : recipeList db uid tp ip = some out) :
    ∃ tf ifl, paramIds tp = some tf ∧ paramIds ip = some ifl ∧
      out = recipeQueryset db uid tf ifl := by
  unfold recipeList at h
  cases htp : paramIds tp with
  | none => rw [htp] at h; exact absurd h (by simp)
  | some tf =>
    rw [htp] at h
    cases hip : paramIds ip with
    | none => rw [hip] at h; exact absurd h (by simp)
    | some ifl =>
      rw [hip] at h
      exact ⟨tf, ifl, rfl, rfl, (Option.some.injEq _ _ ▸ h).symm⟩

theorem mem_of_recipeList (db : DB) (uid : Nat) (tp ip : Option String)
    (out : List Recipe) (r : Recipe) (h : recipeList db uid tp ip = some out)
    (hr : r ∈ out) : r ∈ db.recipes ∧ r.user = uid := by
  obtain ⟨tf, ifl, _, _, rfl⟩ := recipeList_eq db uid tp ip out h
  have := (mem_recipeQueryset db uid tf ifl r).mp hr
  exact ⟨this.1, this.2.1⟩

theorem recipeGetObject_mem (db : DB) (uid : Nat) (tp ip : Option String)
    (rid : Nat) (r : Recipe) (h : recipeGetObject db uid tp ip rid = some r) :
    r ∈ db.recipes ∧ r.user = uid := by
  unfold recipeGetObject at h
  cases hl : recipeList db uid tp ip with
  | none => rw [hl] at h; exact absurd h (by simp)
  | some out =>
    rw [hl] at h
    rw [Option.some_bind] at h
    exact mem_of_recipeList db uid tp ip out r hl (List.mem_of_find?_eq_some h)

theorem tagList_eq (db : DB) (uid : Nat) (p : Option String)
    (out : List Tag) (h : tagList db uid p = some out) :
    ∃ flag, assignedFlag p = some flag ∧ out = tagQueryset db uid flag := by
  unfold tagList at h
  cases hf : assignedFlag p with
  | none => rw [hf] at h; exact absurd h (by simp)
  | some flag =>
    rw [hf] at h
    rw [Option.map_some'] at h
    exact ⟨flag, rfl, (Option.some.injEq _ _ ▸ h).symm⟩

theorem mem_of_tagList (db : DB) (uid : Nat) (p : Option String)
    (out : List Tag) (t : Tag) (h : tagList db uid p = some out)
    (ht : t ∈ out) : t ∈ db.tags ∧ t.user = uid := by
  obtain ⟨flag, _, rfl⟩ := tagList_eq db uid p out h
  have := (mem_tagQueryset db uid flag t).mp ht
  exact ⟨this.1, this.2.1⟩

theorem tagGetObject_mem (db : DB) (uid : Nat) (p : Option String)
    (tid : Nat) (t : Tag) (h : tagGetObject db uid p tid = some t) :
    t ∈ db.tags ∧ t.user = uid := by
  unfold tagGetObject at h
  cases hl : tagList db uid p with
  | none => rw [hl] at h; exact absurd h (by simp)
  | some out =>
    rw [hl] at h
    rw [Option.some_bind] at h
    exact mem_of_tagList db uid p out t hl (List.mem_of_find?_eq_some h)

theorem ingredientList_eq (db : DB) (uid : Nat) (p : Option String)
    (out : List Ingredient) (h : ingredientList db uid p = some out) :
    ∃ flag, assignedFlag p = some flag ∧
      out = ingredientQueryset db uid flag := by
  unfold ingredientList at h
  cases hf : assignedFlag p with
  | none => rw [hf] at h; exact absurd h (by simp)
  | some flag =>
    rw [hf] at h
    rw [Option.map_some'] at h
    exact ⟨flag, rfl, (Option.some.injEq _ _ ▸ h).symm⟩

theorem mem_of_ingredientList (db : DB) (uid : Nat) (p : Option String)
    (out : List Ingredient) (t : Ingredient)
    (h : ingredientList db uid p = some out) (ht : t ∈ out) :
    t ∈ db.ingredients ∧ t.user = uid := by
  obtain ⟨flag, _, rfl⟩ := ingredientList_eq db uid p out h
  have := (mem_ingredientQueryset db uid flag t).mp ht
  exact ⟨this.1, this.2.1⟩

theorem ingredientGetObject_mem (db : DB) (uid : Nat) (p : Option String)
    (iid : Nat) (t : Ingredient)
    (h : ingredientGetObject db uid p iid = some t) :
    t ∈ db.ingredients ∧ t.user = uid := by
  unfold ingredientGetObject at h
  cases hl : ingredientList db uid p with
  | none => rw [hl] at h; exact absurd h (by simp)
  | some out =>
    rw [hl] at h
    rw [Option.some_bind] at h
    exact mem_of_ingredientList db uid p out t hl (List.mem_of_find?_eq_some h)

theorem tagInstanceExists_iff (db : DB) (uid : Nat) (name : String) :
    tagInstanceExists db uid name = true ↔
      ∃ t ∈ db.tags, t.user = uid ∧ lowerStr t.name = lowerStr name := by
  simp [tagInstanceExists, List.any_eq_true, iexact, Bool.and_eq_true,
    beq_iff_eq]

theorem ingredientInstanceExists_iff (db : DB) (uid : Nat) (name : String) :
    ingredientInstanceExists db uid name = true ↔
      ∃ i ∈ db.ingredients, i.user = uid ∧ lowerStr i.name = lowerStr name := by
  simp [ingredientInstanceExists, List.any_eq_true, iexact, Bool.and_eq_true,
    beq_iff_eq]

theorem mem_writableFields {fields : List String} {f : String}
    (h : (writableFields fields).contains f = true) : f ≠ "id" := by
  have hm : f ∈ writableFields fields := by simpa using h
  have h2 := List.mem_filter.mp hm
  simpa using h2.2

theorem setRecipeField_id (r : Recipe) (f : String) (v : FieldVal)
    (hf : f ≠ "id") : (setRecipeField r f v).id = r.id := by
  unfold setRecipeField
  rw [if_neg hf]
  repeat' split
  all_goals rfl

theorem setRecipeField_user (r : Recipe) (f : String) (v : FieldVal) :
    (setRecipeField r f v).user = r.user := by
  unfold setRecipeField
  repeat' split
  all_goals rfl

theorem deserializeRecipe_id (fields : List String)
    (payload : List (String × FieldVal)) : ∀ r : Recipe,
    (deserializeRecipe fields r payload).id = r.id := by
  induction payload with
  | nil => intro r; rfl
  | cons kv rest ih =>
    intro r
    have hstep : deserializeRecipe fields r (kv :: rest) =
        deserializeRecipe fields
          (if (writableFields fields).contains kv.1 then
            setRecipeField r kv.1 kv.2 else r) rest := rfl
    rw [hstep, ih]
    by_cases h : (writableFields fields).contains kv.1 = true
    · rw [if_pos h]
      exact setRecipeField_id r kv.1 kv.2 (mem_writableFields h)
    · rw [if_neg h]

theorem deserializeRecipe_user (fields : List String)
    (payload : List (String × FieldVal)) : ∀ r : Recipe,
    (deserializeRecipe fields r payload).user = r.user := by
  induction payload with
  | nil => intro r; rfl
  | cons kv rest ih =>
    intro r
    have hstep : deserializeRecipe fields r (kv :: rest) =
        deserializeRecipe fields
          (if (writableFields fields).contains kv.1 then
            setRecipeField r kv.1 kv.2 else r) rest := rfl
    rw [hstep, ih]
    by_cases h : (writableFields fields).contains kv.1 = true
    · rw [if_pos h]
      exact setRecipeField_user r kv.1 kv.2
    · rw [if_neg h]

theorem mapM_aux_isSome {α β : Type} (f : α → Option β) (l : List α)
    (h : l.all (fun x => (f x).isSome) = true) :
    (l.mapM' f).isSome = true := by
  induction l with
  | nil => rfl
  | cons x xs ih =>
    rw [List.all_cons, Bool.and_eq_true] at h
    obtain ⟨y, hy⟩ := Option.isSome_iff_exists.mp h.1
    obtain ⟨ys, hys⟩ := Option.isSome_iff_exists.mp (ih h.2)
    simp [List.mapM', hy, hys]

theorem mapM_aux_all_isSome {α β : Type} (f : α → Option β) (l : List α)
    (h : (l.mapM' f).isSome = true) : l.all (fun x => (f x).isSome) = true := by
  induction l with
  | nil => rfl
  | cons x xs ih =>
    rw [List.all_cons, Bool.and_eq_true]
    cases hfx : f x with
    | none => simp [List.mapM', hfx] at h
    | some y =>
      cases hxs : xs.mapM' f with
      | none => simp [List.mapM', hfx, hxs] at h
      | some ys => exact ⟨by simp [hfx], ih (by simp [hxs])⟩

theorem mapM_isSome_iff {α β : Type} (f : α → Option β) (l : List α) :
    (l.mapM f).isSome = true ↔ l.all (fun x => (f x).isSome) = true := by
  rw [← List.mapM'_eq_mapM]
  exact ⟨mapM_aux_all_isSome f l, mapM_aux_isSome f l⟩

/-! ### Claim C1 -/

/-- C1: Ownership isolation — for every pair of distinct users `a ≠ b`, an
entity (recipe, tag, or ingredient) owned by `a` never appears in `b`'s
list results, nor in the `get_object` resolution that `b`'s
retrieve/update/delete actions use: every queryset resolved for a request
is filtered to rows owned by the authenticated caller. -/
theorem c1_ownership_isolation (db : DB) (a b : Nat) (hab : a ≠ b) :
    (∀ r ∈ db.recipes, r.user = a →
      (∀ tp ip out, recipeList db b tp ip = some out → r ∉ out) ∧
      (∀ tp ip rid, recipeGetObject db b tp ip rid ≠ some r)) ∧
    (∀ t ∈ db.tags, t.user = a →
      (∀ p out, tagList db b p = some out → t ∉ out) ∧
      (∀ p tid, tagGetObject db b p tid ≠ some t)) ∧
    (∀ i ∈ db.ingredients, i.user = a →
      (∀ p out, ingredientList db b p = some out → i ∉ out) ∧
      (∀ p iid, ingredientGetObject db b p iid ≠ some i)) := by
  refine ⟨?_, ?_, ?_⟩
  · intro r _ hra
    constructor
    · intro tp ip out hout hmem
      exact hab (hra ▸ (mem_of_recipeList db b tp ip out r hout hmem).2.symm).symm
    · intro tp ip rid hres
      exact hab (hra ▸ (recipeGetObject_mem db b tp ip rid r hres).2.symm).symm
  · intro t _ hta
    constructor
    · intro p out hout hmem
      exact hab (hta ▸ (mem_of_tagList db b p out t hout hmem).2.symm).symm
    · intro p tid hres
      exact hab (hta ▸ (tagGetObject_mem db b p tid t hres).2.symm).symm
  · intro i _ hia
    constructor
    · intro p out hout hmem
      exact hab (hia ▸ (mem_of_ingredientList db b p out i hout hmem).2.symm).symm
    · intro p iid hres
      exact hab (hia ▸ (ingredientGetObject_mem db b p iid i hres).2.symm).symm

/-- C1 witness: user 2's `get_object` on user 1's recipe does not resolve it. -/
theorem c1_ownership_isolation_witness :
    recipeGetObject sampleDB 2 none none 1 ≠ some sampleRecipe :=
  ((c1_ownership_isolation sampleDB 1 2 (by decide)).1 sampleRecipe
    (by simp [sampleDB]) rfl).2 none none 1

/-! ### Claim C2 -/

/-- C2 (evaluation at the failing input): `RecipeSerializer` /
`RecipeDetailSerializer` declare no `tags` field, so the nested-tags
payload `[{"name": "Dinner"}, {"name": "Thai"}]` is silently ignored: the
create succeeds with 201 but the user who owned no tags still owns zero
tags and the recipe has zero tag associations — against the claimed exactly
2 created tags and 2 associations (which the repository's own
`test_create_recipe_with_new_tags` asserts). -/
theorem c2_nested_tags_ignored :
    (recipeCreate emptyDB 1 thaiCurryPayload).1 = .s201 ∧
    (recipeCreate emptyDB 1 thaiCurryPayload).2.tags = [] ∧
    (recipeCreate emptyDB 1 thaiCurryPayload).2.recipeTags = [] ∧
    (recipeCreate emptyDB 1 thaiCurryPayload).2.recipes.length = 1 :=
  ⟨by decide, rfl, rfl, by decide⟩

/-! ### Claim C3 -/

/-- C3: for every user, creating a tag (or ingredient) whose name equals an
already-owned entry's name up to letter case is answered 400 and persists
no second row (the database is unchanged); when no such owned entry exists,
the create persists the entry with owner set to the caller and returns 201. -/
theorem c3_create_duplicate_rejected (db : DB) (uid : Nat) (name : String)
    (hval : validName name = true) :
    ((∃ t ∈ db.tags, t.user = uid ∧ lowerStr t.name = lowerStr name) →
      tagCreate db uid name = (.s400, db)) ∧
    (¬ (∃ t ∈ db.tags, t.user = uid ∧ lowerStr t.name = lowerStr name) →
      tagCreate db uid name =
        (.s201, { db with tags := db.tags ++ [⟨freshTagId db, uid, name⟩] })) ∧
    ((∃ i ∈ db.ingredients, i.user = uid ∧ lowerStr i.name = lowerStr name) →
      ingredientCreate db uid name = (.s400, db)) ∧
    (¬ (∃ i ∈ db.ingredients, i.user = uid ∧ lowerStr i.name = lowerStr name) →
      ingredientCreate db uid name =
        (.s201, { db with ingredients :=
            db.ingredients ++ [⟨freshIngredientId db, uid, name⟩] })) := by
  refine ⟨?_, ?_, ?_, ?_⟩
  · intro hex
    have h := (tagInstanceExists_iff db uid name).mpr hex
    simp [tagCreate, hval, h]
  · intro hnex
    have h : tagInstanceExists db uid name = false := by
      rw [Bool.eq_false_iff]
      intro hh
      exact hnex ((tagInstanceExists_iff db uid name).mp hh)
    simp [tagCreate, hval, h]
  · intro hex
    have h := (ingredientInstanceExists_iff db uid name).mpr hex
    simp [ingredientCreate, hval, h]
  · intro hnex
    have h : ingredientInstanceExists db uid name = false := by
      rw [Bool.eq_false_iff]
      intro hh
      exact hnex ((ingredientInstanceExists_iff db uid name).mp hh)
    simp [ingredientCreate, hval, h]

/-- C3 witness: with `Vegan` owned by user 1, creating `vegan` is rejected
with 400 and the database is unchanged. -/
theorem c3_create_duplicate_rejected_witness :
    tagCreate sampleDB 1 "vegan" = (.s400, sampleDB) :=
  (c3_create_duplicate_rejected sampleDB 1 "vegan" (by decide)).1
    ⟨⟨1, 1, "Vegan"⟩, by decide, rfl, by decide⟩

/-! ### Claim C4 -/

/-- C4 counterexample: in `crossDB`, user 1's tag `Apples` is referenced
only by user 2's recipe, yet user 1's `assigned_only=1` listing returns it
— refuting "exactly the owned entries that are referenced by at least one
recipe belonging to that same caller". -/
theorem c4_assigned_only_counterexample :
    tagList crossDB 1 (some "1") = some [⟨1, 1, "Apples"⟩] ∧
    ¬ ∃ r ∈ crossDB.recipes, r.user = 1 ∧ (r.id, 1) ∈ crossDB.recipeTags :=
  ⟨by decide, by decide⟩

/-- C4 (amended): for every user, listing tags (or ingredients) with
`assigned_only=1` returns exactly the owned entries that are referenced by
at least one recipe association — regardless of which user owns the
referencing recipe — with each entry appearing once even if referenced by
multiple recipes. -/
theorem c4_assigned_only_amended (db : DB) (uid : Nat) (p : Option String)
    (hp : assignedFlag p = some true) :
    (tagList db uid p = some (tagQueryset db uid true) ∧
      (∀ t, t ∈ tagQueryset db uid true ↔
        t ∈ db.tags ∧ t.user = uid ∧ ∃ q ∈ db.recipeTags, q.2 = t.id) ∧
      (tagQueryset db uid true).Nodup) ∧
    (ingredientList db uid p = some (ingredientQueryset db uid true) ∧
      (∀ i, i ∈ ingredientQueryset db uid true ↔
        i ∈ db.ingredients ∧ i.user = uid ∧
          ∃ q ∈ db.recipeIngredients, q.2 = i.id) ∧
      (ingredientQueryset db uid true).Nodup) := by
  refine ⟨⟨?_, ?_, nodup_tagQueryset db uid true⟩,
    ⟨?_, ?_, nodup_ingredientQueryset db uid true⟩⟩
  · simp [tagList, hp]
  · intro t
    simpa using mem_tagQueryset db uid true t
  · simp [ingredientList, hp]
  · intro i
    simpa using mem_ingredientQueryset db uid true i

/-- C4 witness: the amended characterization instantiated on `sampleDB`. -/
theorem c4_assigned_only_amended_witness :
    tagList sampleDB 1 (some "1") = some (tagQueryset sampleDB 1 true) :=
  ((c4_assigned_only_amended sampleDB 1 (some "1") (by decide)).1).1

/-! ### Claim C5 -/

/-- C5 counterexample: on a concrete recipe, the detail serialization's
keys are list-fields plus `description` only — `image` is absent, refuting
"exactly those fields plus description and image". -/
theorem c5_projection_counterexample :
    (serializeRecipe recipeDetailSerializerFields sampleRecipe).map Prod.fst ≠
      ["id", "title", "time_minutes", "price", "link", "description",
        "image"] ∧
    "image" ∉ recipeDetailSerializerFields :=
  ⟨by decide, by decide⟩

/-- C5 (amended): for every recipe, the list serialization exposes exactly
the fields id, title, time_minutes, price, link, and the detail
serialization exposes exactly those fields plus description (the image is
handled by the separate upload serializer and is not part of the detail
projection). -/
theorem c5_projection_fields_amended (r : Recipe) :
    (serializeRecipe recipeSerializerFields r).map Prod.fst =
      ["id", "title", "time_minutes", "price", "link"] ∧
    (serializeRecipe recipeDetailSerializerFields r).map Prod.fst =
      ["id", "title", "time_minutes", "price", "link", "description"] ∧
    get_serializer_class "list" = .list ∧
    get_serializer_class "retrieve" = .detail := by
  refine ⟨?_, ?_, by decide, by decide⟩ <;>
    simp [serializeRecipe, recipeSerializerFields, recipeDetailSerializerFields]

/-! ### Claim C6 -/

/-- C6: the serialization layer treats `id` as read-only — deserializing
any payload never changes the instance's id, and a create ignores any
supplied id: the persisted row's id is the fresh auto-increment key and its
owner is the caller, regardless of the payload. -/
theorem c6_id_read_only (fields : List String) (r : Recipe)
    (payload : List (String × FieldVal)) :
    (deserializeRecipe fields r payload).id = r.id ∧
    (∀ db uid, requiredPresent payload = true →
      ∃ rc, (recipeCreate db uid payload).2.recipes = db.recipes ++ [rc] ∧
        rc.id = freshRecipeId db ∧ rc.user = uid) := by
  refine ⟨deserializeRecipe_id fields payload r, ?_⟩
  intro db uid hreq
  refine ⟨deserializeRecipe recipeDetailSerializerFields
    (newRecipeBase db uid) payload, ?_, ?_, ?_⟩
  · simp [recipeCreate, hreq]
  · rw [deserializeRecipe_id]; rfl
  · rw [deserializeRecipe_user]; rfl

/-- C6 witness: a payload supplying `id := 999` neither changes a
deserialized instance's id nor the id or owner of a created row. -/
theorem c6_id_read_only_witness :
    (deserializeRecipe recipeSerializerFields sampleRecipe
      [("id", FieldVal.nat 999)]).id = sampleRecipe.id ∧
    ∃ rc, (recipeCreate emptyDB 1
        (("id", FieldVal.nat 999) :: thaiCurryPayload)).2.recipes =
      emptyDB.recipes ++ [rc] ∧ rc.id = freshRecipeId emptyDB ∧ rc.user = 1 :=
  ⟨(c6_id_read_only recipeSerializerFields sampleRecipe
      [("id", FieldVal.nat 999)]).1,
   (c6_id_read_only recipeSerializerFields sampleRecipe
      (("id", FieldVal.nat 999) :: thaiCurryPayload)).2 emptyDB 1 (by decide)⟩

/-! ### Claim C7 -/

/-- C7: for every authenticated caller, the recipe list returns the
caller's recipes ordered by descending id; a given `tags` or `ingredients`
comma-separated id parameter narrows the result to recipes associated with
at least one of that parameter's listed ids, and the result contains each
recipe at most once. -/
theorem c7_recipe_list_filtered (db : DB) (uid : Nat) (tp ip : Option String)
    (tf ifl : Option (List Int))
    (h1 : paramIds tp = some tf) (h2 : paramIds ip = some ifl) :
    recipeList db uid tp ip = some (recipeQueryset db uid tf ifl) ∧
    (∀ r, r ∈ recipeQueryset db uid tf ifl ↔
      r ∈ db.recipes ∧ r.user = uid ∧
      (∀ ids, tf = some ids →
        ∃ q ∈ db.recipeTags, q.1 = r.id ∧ Int.ofNat q.2 ∈ ids) ∧
      (∀ ids, ifl = some ids →
        ∃ q ∈ db.recipeIngredients, q.1 = r.id ∧ Int.ofNat q.2 ∈ ids)) ∧
    (recipeQueryset db uid tf ifl).Nodup ∧
    (recipeQueryset db uid tf ifl).Pairwise idDesc := by
  refine ⟨?_, mem_recipeQueryset db uid tf ifl,
    nodup_recipeQueryset db uid tf ifl, sorted_recipeQueryset db uid tf ifl⟩
  simp [recipeList, h1, h2]

/-- C7 witness: listing with `tags=1,2` on `sampleDB` resolves the filtered
queryset. -/
theorem c7_recipe_list_filtered_witness :
    recipeList sampleDB 1 (some "1,2") none =
      some (recipeQueryset sampleDB 1 (some [1, 2]) none) :=
  (c7_recipe_list_filtered sampleDB 1 (some "1,2") none (some [1, 2]) none
    (by decide) (by decide)).1

/-! ### Claim C8 -/

/-- C8: `upload_image` on an owned recipe returns 400 with the validation
errors exactly when the uploaded data fails image validation, and otherwise
stores the image reference on the recipe row and returns 200. -/
theorem c8_upload_image_behaviour (validate : String → Bool) (db : DB)
    (uid rid : Nat) (img : String) (r : Recipe)
    (hobj : recipeGetObject db uid none none rid = some r) :
    (validate img = false →
      upload_image validate db uid rid img = (.s400, db)) ∧
    (validate img = true →
      (upload_image validate db uid rid img).1 = .s200 ∧
      { r with image := some img } ∈
        (upload_image validate db uid rid img).2.recipes) := by
  constructor
  · intro hv
    simp [upload_image, hobj, hv]
  · intro hv
    have hmem := (recipeGetObject_mem db uid none none rid r hobj).1
    refine ⟨by simp [upload_image, hobj, hv], ?_⟩
    simp only [upload_image, hobj, hv, if_true]
    have hfr : ({ r with image := some img } : Recipe) =
        (fun x => if x.id == r.id then { x with image := some img } else x) r := by
      simp
    rw [hfr]
    exact List.mem_map_of_mem _ hmem

/-- C8 witness: a rejecting validator yields 400 with unchanged state; an
accepting validator yields 200. -/
theorem c8_upload_image_behaviour_witness :
    upload_image (fun _ => false) sampleDB 1 1 "cat.jpg" = (.s400, sampleDB) ∧
    (upload_image (fun _ => true) sampleDB 1 1 "cat.jpg").1 = .s200 :=
  ⟨(c8_upload_image_behaviour (fun _ => false) sampleDB 1 1 "cat.jpg"
      sampleRecipe (by decide)).1 rfl,
   ((c8_upload_image_behaviour (fun _ => true) sampleDB 1 1 "cat.jpg"
      sampleRecipe (by decide)).2 rfl).1⟩

/-! ### Claim C9 -/

/-- C9 (implicit): updating an owned tag or ingredient to a name equal to
its own current name up to letter case is rejected with the 400
duplicate-name response and the database is left unchanged, because
`_instance_exists` does not exclude the instance being updated from the
owned-name lookup. -/
theorem c9_self_named_update_rejected (db : DB) (uid : Nat) :
    (∀ tid t newName, tagGetObject db uid none tid = some t →
      validName newName = true → lowerStr newName = lowerStr t.name →
      tagUpdate db uid tid newName = (.s400, db)) ∧
    (∀ iid i newName, ingredientGetObject db uid none iid = some i →
      validName newName = true → lowerStr newName = lowerStr i.name →
      ingredientUpdate db uid iid newName = (.s400, db)) := by
  constructor
  · intro tid t newName hobj hval hname
    have hmem := tagGetObject_mem db uid none tid t hobj
    have hex : tagInstanceExists db uid newName = true :=
      (tagInstanceExists_iff db uid newName).mpr
        ⟨t, hmem.1, hmem.2, hname.symm⟩
    simp [tagUpdate, hobj, hval, hex]
  · intro iid i newName hobj hval hname
    have hmem := ingredientGetObject_mem db uid none iid i hobj
    have hex : ingredientInstanceExists db uid newName = true :=
      (ingredientInstanceExists_iff db uid newName).mpr
        ⟨i, hmem.1, hmem.2, hname.symm⟩
    simp [ingredientUpdate, hobj, hval, hex]

/-- C9 witness: renaming user 1's tag `Vegan` (id 1) to `VEGAN` is answered
400 and the database is unchanged. -/
theorem c9_self_named_update_rejected_witness :
    tagUpdate sampleDB 1 1 "VEGAN" = (.s400, sampleDB) :=
  (c9_self_named_update_rejected sampleDB 1).1 1 ⟨1, 1, "Vegan"⟩ "VEGAN"
    (by decide) (by decide) (by decide)

/-! ### Claim C10 -/

/-- C10 (implicit): for EVERY recipe list request whose `tags` or
`ingredients` query parameter is a non-empty string containing a token that
is not a valid integer (e.g. `"a,b"` or `"1,"`), the id conversion raises
an unhandled exception (`none`: no structured client-error validation
response is produced), in whichever of the two parameter positions the bad
string appears; and the conversion is total exactly on the comma-separated
strings all of whose tokens parse as Python integers. -/
theorem c10_filter_param_exception (qs : String) (hq : qs ≠ "")
    (hbad : ∃ tok ∈ splitOnComma qs.toList, pyIntChars? tok = none) :
    params_to_ints qs = none ∧
    (∀ db uid ip, recipeList db uid (some qs) ip = none) ∧
    (∀ db uid tp, recipeList db uid tp (some qs) = none) ∧
    (∀ s : String, (params_to_ints s).isSome = true ↔
      (splitOnComma s.toList).all (fun tok => (pyIntChars? tok).isSome) = true) := by
  have hnone : params_to_ints qs = none := by
    rw [← Option.not_isSome_iff_eq_none]
    intro hs
    obtain ⟨tok, htok, hbadtok⟩ := hbad
    have hall := (mapM_isSome_iff pyIntChars? (splitOnComma qs.toList)).mp hs
    rw [List.all_eq_true] at hall
    have htoksome := hall tok htok
    rw [hbadtok] at htoksome
    simp at htoksome
  have hpi : paramIds (some qs) = none := by
    simp [paramIds, hq, hnone]
  refine ⟨hnone, ?_, ?_, fun s => mapM_isSome_iff pyIntChars? (splitOnComma s.toList)⟩
  · intro db uid ip
    simp [recipeList, hpi]
  · intro db uid tp
    cases htp : paramIds tp with
    | none => simp [recipeList, htp]
    | some tf => simp [recipeList, htp, hpi]

/-- C10 witness: the exception path with `tags=a,b` and with
`ingredients=1,`, and the success path on `1,2`. -/
theorem c10_filter_param_exception_witness :
    recipeList sampleDB 1 (some "a,b") none = none ∧
    recipeList sampleDB 1 none (some "1,") = none ∧
    (params_to_ints "1,2").isSome = true :=
  ⟨(c10_filter_param_exception "a,b" (by decide)
      ⟨['a'], by decide, by decide⟩).2.1 sampleDB 1 none,
   (c10_filter_param_exception "1," (by decide)
      ⟨[], by decide, by decide⟩).2.2.1 sampleDB 1 none,
   ((c10_filter_param_exception "a,b" (by decide)
      ⟨['a'], by decide, by decide⟩).2.2.2 "1,2").mpr (by decide)⟩

end RecipeApi
